import Mathlib

/-!
Verification development for the LxMonitor native-engine build/cache/linker
subsystem (LxBinMan plus the runtime linker and watchdog handlers).

The Python sources are shallowly embedded:

* strings are Lean `String`s, manipulated through their `List Char` data so
  that every operation reduces by evaluation;
* timestamps (file modification times, wall-clock seconds) are modelled as
  integers: only their ordering and differences are ever consulted by the
  code under verification;
* the filesystem is made explicit as record types holding the files a single
  engine resolution can touch;
* fallible operations return `Except` or are driven by explicit oracles
  (subprocess exit codes, import outcomes), so exception control flow is
  visible in the model.

Character-class predicates (`isalnum`, `lower`, whitespace) are modelled on
the ASCII range, which covers every string the subsystem manipulates.
-/

/-- Python `str.strip` on the character list of a string: drop ASCII
whitespace from both ends. -/
def py_strip (l : List Char) : List Char :=
  ((l.dropWhile Char.isWhitespace).reverse.dropWhile Char.isWhitespace).reverse

/-- Python `str.lower` on the character list of a string. -/
def py_lower (l : List Char) : List Char := l.map Char.toLower

/-- Composition `str(x).strip().lower()` used throughout `manifest.py` and
`autobin.py` when normalising manifest fields and recorded hashes. -/
def strip_lower (s : String) : String := String.mk (py_lower (py_strip s.data))

/-- Python `str.lower` alone (used for the live content hash, which is
lowered but not stripped). -/
def lower_only (s : String) : String := String.mk (py_lower s.data)

/-- Runtime fingerprint, the result of `manifest.runtime_info()`: managed
runtime version, ABI tag, OS family and CPU architecture. The platform
probes are impure, so the fingerprint is a parameter of the model. -/
structure RuntimeInfo where
  python_version : String
  python_soabi : String
  system : String
  machine : String
deriving DecidableEq

/-- Characters kept verbatim by the cache-key sanitizer in
`manifest.cache_key`: alphanumeric or one of `-`, `_`, `.`. -/
def safe_char (c : Char) : Bool :=
  c.isAlphanum || c == '-' || c == '_' || c == '.'

/-- One sanitizer step of `manifest.cache_key`: a safe character is kept,
anything else becomes an underscore. -/
def sanitize_char (c : Char) : Char :=
  if safe_char c then c else '_'

/-- The `info['python_soabi'] or 'no-soabi'` fallback inside
`manifest.cache_key`: an empty ABI tag is replaced by the literal. -/
def soabi_or_default (s : String) : String :=
  if s = "" then "no-soabi" else s

/-- Raw joined key string of `manifest.cache_key` before sanitization:
`py{version}-{soabi or no-soabi}-{system}-{machine}`. -/
def cache_key_raw (info : RuntimeInfo) : List Char :=
  "py".data ++ info.python_version.data ++ ['-'] ++
    (soabi_or_default info.python_soabi).data ++ ['-'] ++
    info.system.data ++ ['-'] ++ info.machine.data

/-- The sanitized cache key of `manifest.cache_key`. -/
def cache_key (info : RuntimeInfo) : String :=
  String.mk ((cache_key_raw info).map sanitize_char)

/-- Parsed manifest dictionary: the four fingerprint fields (absent keys are
`none`) and the filename-to-content-hash table. -/
structure ManifestData where
  python_version : Option String
  python_soabi : Option String
  system : Option String
  machine : Option String
  hashes : List (String × String)
deriving DecidableEq

/-- A manifest file on disk: absent, unparseable (or parsing to a non-dict),
or parsed to a dictionary. -/
inductive ManifestFile where
  | absent
  | malformed
  | parsed (data : ManifestData)
deriving DecidableEq

/-- The empty dictionary. -/
def empty_manifest : ManifestData :=
  { python_version := none, python_soabi := none, system := none,
    machine := none, hashes := [] }

/-- Model of `manifest.read_manifest`: an absent or malformed manifest file
reads as the empty dictionary, never as an error. -/
def read_manifest : ManifestFile → ManifestData
  | .absent => empty_manifest
  | .malformed => empty_manifest
  | .parsed d => d

/-- Emptiness test `not manifest_data` on the parsed dictionary. -/
def manifest_is_empty (m : ManifestData) : Bool :=
  m.python_version == none && m.python_soabi == none &&
    m.system == none && m.machine == none && m.hashes == []

/-- One iteration of the field loop in `manifest.is_manifest_compatible`:
the manifest value is normalised with `strip` and `lower`; a missing or
blank value is ignored, otherwise it must equal the normalised current
field. -/
def manifest_field_ok (current : String) (field : Option String) : Bool :=
  match field with
  | none => true
  | some v =>
    let expected := strip_lower v
    if expected = "" then true else expected == strip_lower current

/-- Model of `manifest.is_manifest_compatible`. -/
def is_manifest_compatible (info : RuntimeInfo) (m : ManifestData) : Bool :=
  if manifest_is_empty m then true
  else
    manifest_field_ok info.python_version m.python_version &&
    manifest_field_ok info.python_soabi m.python_soabi &&
    manifest_field_ok info.system m.system &&
    manifest_field_ok info.machine m.machine

/-- Stated from the words of claim C7, for comparison with the source
definition: a present, non-empty field must equal the current field under
case-insensitive comparison (no whitespace stripping). -/
def spec_field_ok_c7 (current : String) (field : Option String) : Bool :=
  match field with
  | none => true
  | some v => if v = "" then true else lower_only v == lower_only current

/-- Stated from the words of claim C7: compatibility as literal
case-insensitive equality of every present non-empty field. -/
def spec_manifest_compatible_c7 (info : RuntimeInfo) (m : ManifestData) : Bool :=
  spec_field_ok_c7 info.python_version m.python_version &&
  spec_field_ok_c7 info.python_soabi m.python_soabi &&
  spec_field_ok_c7 info.system m.system &&
  spec_field_ok_c7 info.machine m.machine

/-- All characters of every fingerprint field lie in the sanitizer-safe
set. -/
def safe_info (i : RuntimeInfo) : Bool :=
  i.python_version.data.all safe_char && i.python_soabi.data.all safe_char &&
    i.system.data.all safe_char && i.machine.data.all safe_char

/-- Two fingerprints that agree on three fields and differ in the fourth. -/
def differ_in_one_field (i₁ i₂ : RuntimeInfo) : Prop :=
  (i₁.python_version ≠ i₂.python_version ∧ i₁.python_soabi = i₂.python_soabi ∧
    i₁.system = i₂.system ∧ i₁.machine = i₂.machine) ∨
  (i₁.python_version = i₂.python_version ∧ i₁.python_soabi ≠ i₂.python_soabi ∧
    i₁.system = i₂.system ∧ i₁.machine = i₂.machine) ∨
  (i₁.python_version = i₂.python_version ∧ i₁.python_soabi = i₂.python_soabi ∧
    i₁.system ≠ i₂.system ∧ i₁.machine = i₂.machine) ∨
  (i₁.python_version = i₂.python_version ∧ i₁.python_soabi = i₂.python_soabi ∧
    i₁.system = i₂.system ∧ i₁.machine ≠ i₂.machine)

/-- A file on disk, reduced to the attributes the loader consults: its
modification time and its content hash (`_sha256_file` is injective on
contents, so the hash stands in for the content). -/
structure DiskFile where
  mtime : Int
  hash : String
deriving DecidableEq

/-- Build signature of `autobin._build_signature`: source hash, compiler,
language standard and extra flags. -/
structure BuildSignature where
  source_sha256 : String
  compiler : String
  cxx_std : String
  extra_compile_args : List String
  extra_link_args : List String
deriving DecidableEq

/-- Binary-interface sidecar written by `autobin._write_abi_sidecar`: the
fingerprint at build time plus the build signature. -/
structure AbiSidecar where
  rt : RuntimeInfo
  build_signature : Option BuildSignature
deriving DecidableEq

/-- Model of `autobin._is_abi_compatible`: a missing or unreadable sidecar
is incompatible; otherwise the four fingerprint fields must match exactly
and, since `load` always supplies a non-empty expected signature, the
recorded signature must equal it byte for byte. -/
def is_abi_compatible (sc : Option AbiSidecar) (info : RuntimeInfo)
    (sig : BuildSignature) : Bool :=
  match sc with
  | none => false
  | some s => s.rt == info && s.build_signature == some sig

/-- Model of `autobin._manifest_ok`: an empty manifest is reported
compatible together with the empty dictionary, otherwise compatibility is
checked and the manifest returned. -/
def manifest_ok (info : RuntimeInfo) (m : ManifestData) : Bool × ManifestData :=
  if manifest_is_empty m then (true, empty_manifest)
  else (is_manifest_compatible info m, m)

/-- Model of `autobin._copy_if_fresh_verified` as the predicate deciding
whether the copy happens: the source file must exist, must not be older
than the engine source, and when the manifest records a non-blank content
hash for the filename the live hash (lowered) must equal it (stripped and
lowered). -/
def copy_if_fresh_verified (src : Option DiskFile) (cpp_mtime : Int)
    (m : ManifestData) (bin_name : String) : Bool :=
  match src with
  | none => false
  | some f =>
    if f.mtime < cpp_mtime then false
    else
      let expected := strip_lower ((m.hashes.lookup bin_name).getD "")
      if expected ≠ "" then
        if lower_only f.hash ≠ expected then false else true
      else true

/-- Filesystem slice touched by one `autobin.load` call: the engine source
file, the target binary with its sidecar, and the two durable-store
locations with their manifests. -/
structure FsState where
  cpp_mtime : Int
  target : Option DiskFile
  target_sidecar : Option AbiSidecar
  prebuilt_key : Option DiskFile
  prebuilt_key_manifest : ManifestData
  prebuilt_plain : Option DiskFile
  prebuilt_plain_manifest : ManifestData
deriving DecidableEq

/-- Per-call parameters of `autobin.load` together with the oracles for the
impure steps: the compile outcome and the produced file. `abi_guard`
mirrors `bool(output_dir)` and `save_prebuilt` the keyword argument. -/
structure ResolveEnv where
  bin_name : String
  info : RuntimeInfo
  signature : BuildSignature
  abi_guard : Bool
  save_prebuilt : Bool
  build_ok : Bool
  build_hash : String
  build_mtime : Int
deriving DecidableEq

/-- Assignment of the restored binary to the target location, plus the
fresh sidecar `load` writes after a restore when interface guarding is
active. -/
def restore_target (env : ResolveEnv) (fs : FsState) (f : Option DiskFile) :
    FsState :=
  let fs1 := { fs with target := f }
  if env.abi_guard then
    { fs1 with target_sidecar := some ⟨env.info, some env.signature⟩ }
  else fs1

/-- Model of `autobin._upsert_prebuilt_manifest`: merge the current
fingerprint fields into the store manifest and set the content hash for
this filename. -/
def upsert_prebuilt_manifest (info : RuntimeInfo) (m : ManifestData)
    (bin_name h : String) : ManifestData :=
  { python_version := some info.python_version,
    python_soabi := some info.python_soabi,
    system := some info.system,
    machine := some info.machine,
    hashes := (bin_name, h) :: m.hashes.filter (fun p => !(p.1 == bin_name)) }

/-- Model of `autobin._backup_prebuilt`: copy the target binary into the
key-scoped durable-store location and upsert that manifest. -/
def backup_prebuilt (env : ResolveEnv) (fs : FsState) : FsState :=
  match fs.target with
  | none => fs
  | some f =>
    { fs with
      prebuilt_key := some f
      prebuilt_key_manifest :=
        upsert_prebuilt_manifest env.info fs.prebuilt_key_manifest
          env.bin_name f.hash }

/-- Condition under which the key-scoped durable-store location yields a
restore: compatible manifest and a fresh, hash-verified binary. -/
def prebuilt_key_usable (env : ResolveEnv) (fs : FsState) : Bool :=
  let km := manifest_ok env.info fs.prebuilt_key_manifest
  km.1 && copy_if_fresh_verified fs.prebuilt_key fs.cpp_mtime km.2 env.bin_name

/-- Condition under which the plain durable-store location yields a
restore. -/
def prebuilt_plain_usable (env : ResolveEnv) (fs : FsState) : Bool :=
  let pm := manifest_ok env.info fs.prebuilt_plain_manifest
  pm.1 && copy_if_fresh_verified fs.prebuilt_plain fs.cpp_mtime pm.2 env.bin_name

/-- Model of the inner `try_prebuilt` of `autobin.load`: key-scoped
location first, then the plain one; on success the binary is copied to the
target and, under interface guarding, a fresh sidecar is written. -/
def try_prebuilt (env : ResolveEnv) (fs : FsState) : Bool × FsState :=
  if prebuilt_key_usable env fs then
    (true, restore_target env fs fs.prebuilt_key)
  else if prebuilt_plain_usable env fs then
    (true, restore_target env fs fs.prebuilt_plain)
  else (false, fs)

/-- Model of the inner `try_cache` of `autobin.load`: the target binary
must exist, be no older than the source, and under interface guarding its
sidecar must match the current fingerprint and signature. -/
def try_cache (env : ResolveEnv) (fs : FsState) : Bool :=
  match fs.target with
  | none => false
  | some f =>
    if f.mtime < fs.cpp_mtime then false
    else if env.abi_guard && !(is_abi_compatible fs.target_sidecar env.info env.signature) then
      false
    else true

/-- Status values reported by `autobin.load`. -/
inductive BuildStatus where
  | up_to_date
  | restored
  | rebuilt
deriving DecidableEq

/-- Failure modes of `autobin.load` relevant to the claims, mirrors the
`AutoBinError` messages. -/
inductive LoadError where
  | no_compatible_prebuilt
  | build_failed
deriving DecidableEq

/-- Result of one `autobin.load` call: the reported outcome, the filesystem
afterwards, and whether `_build_module` ran. -/
structure ResolveOut where
  result : Except LoadError BuildStatus
  fs : FsState
  build_invoked : Bool

/-- Model of `autobin._build_module` as seen from `load`, plus the sidecar
write and durable-store backup that follow a successful build under
interface guarding. -/
def do_build (env : ResolveEnv) (fs : FsState) : ResolveOut :=
  if env.build_ok then
    let fs1 := { fs with target := some ⟨env.build_mtime, env.build_hash⟩ }
    let fs2 :=
      if env.abi_guard then
        { fs1 with target_sidecar := some ⟨env.info, some env.signature⟩ }
      else fs1
    let fs3 := if env.abi_guard && env.save_prebuilt then backup_prebuilt env fs2 else fs2
    ⟨.ok .rebuilt, fs3, true⟩
  else ⟨.error .build_failed, fs, true⟩

/-- The four load policies of `autobin.LoadPolicy`. -/
inductive LoadPolicy where
  | prefer_prebuilt
  | prefer_cache
  | build_only
  | prebuilt_only
deriving DecidableEq

/-- Model of `autobin.load` (compile-only view: the reported status is the
one the status dictionary carries; importing the produced module is outside
the model). -/
def load (policy : LoadPolicy) (env : ResolveEnv) (fs : FsState) : ResolveOut :=
  match policy with
  | .build_only => do_build env fs
  | .prebuilt_only =>
    match try_prebuilt env fs with
    | (true, fs1) => ⟨.ok .restored, fs1, false⟩
    | (false, _) => ⟨.error .no_compatible_prebuilt, fs, false⟩
  | .prefer_cache =>
    if try_cache env fs then
      let fs1 := if env.abi_guard && env.save_prebuilt then backup_prebuilt env fs else fs
      ⟨.ok .up_to_date, fs1, false⟩
    else
      match try_prebuilt env fs with
      | (true, fs1) => ⟨.ok .restored, fs1, false⟩
      | (false, _) => do_build env fs
  | .prefer_prebuilt =>
    match try_prebuilt env fs with
    | (true, fs1) => ⟨.ok .restored, fs1, false⟩
    | (false, _) =>
      if try_cache env fs then
        let fs1 := if env.abi_guard && env.save_prebuilt then backup_prebuilt env fs else fs
        ⟨.ok .up_to_date, fs1, false⟩
      else do_build env fs

/-- Hypothesis of claim C1 for one durable-store slot: the manifest records
a non-blank content hash for the binary filename and the live file (if it
exists at all) hashes to something else. -/
def hash_mismatch_recorded (f : Option DiskFile) (m : ManifestData)
    (bin_name : String) : Bool :=
  let expected := strip_lower ((m.hashes.lookup bin_name).getD "")
  expected != "" &&
    (match f with
     | none => true
     | some df => lower_only df.hash != expected)

deriving instance DecidableEq for Except

/-- Concrete runtime fingerprint used by the closed witness statements. -/
def w_info : RuntimeInfo := ⟨"3.12", "abi3", "linux", "x86_64"⟩

/-- Concrete build signature used by the closed witness statements. -/
def w_sig : BuildSignature := ⟨"shash", "g++", "c++17", [], []⟩

/-- Concrete resolve environment used by the closed witness statements. -/
def w_env : ResolveEnv :=
  { bin_name := "cpu.so", info := w_info, signature := w_sig,
    abi_guard := false, save_prebuilt := true, build_ok := true,
    build_hash := "newhash", build_mtime := 5 }

/-- Filesystem with tampered hashes in both durable-store manifests. -/
def w_fs_tampered : FsState :=
  { cpp_mtime := 0, target := none, target_sidecar := none,
    prebuilt_key := some ⟨10, "aaaa"⟩,
    prebuilt_key_manifest := ⟨none, none, none, none, [("cpu.so", "bbbb")]⟩,
    prebuilt_plain := some ⟨10, "cccc"⟩,
    prebuilt_plain_manifest := ⟨none, none, none, none, [("cpu.so", "dddd")]⟩ }

/-- Filesystem with a usable key-scoped durable-store entry. -/
def w_fs_key_ok : FsState :=
  { cpp_mtime := 0, target := none, target_sidecar := none,
    prebuilt_key := some ⟨10, "aaaa"⟩,
    prebuilt_key_manifest := empty_manifest,
    prebuilt_plain := none,
    prebuilt_plain_manifest := empty_manifest }

/-- Filesystem slice touched by `autobin._build_module`: the live output
path and its temporary sibling. -/
structure BuildFs where
  live : Option DiskFile
  tmp : Option DiskFile
deriving DecidableEq

/-- Failure modes of `autobin._build_module`: include detection fails
before any compile, the compiler exits non-zero, or the rename finds no
output despite a zero exit. -/
inductive BuildModuleErr where
  | includes_failed
  | compile_failed
  | replace_failed
deriving DecidableEq

/-- Result of `autobin._build_module`: the filesystem afterwards, the
raised error if any, and how many times the external toolchain was run. -/
structure BuildModuleOut where
  fs : BuildFs
  result : Except BuildModuleErr Unit
  compiler_calls : Nat
deriving DecidableEq

/-- Model of `autobin._build_module`: include detection, a single compiler
subprocess writing to the temporary path, then either `os.replace` onto the
live path on a zero exit or deletion of the temporary file and an error on
a non-zero exit. The oracles are the include-detection outcome, the exit
status, and whatever file the compiler left at the temporary path. -/
def build_module (fs : BuildFs) (includes_ok exit_ok : Bool)
    (tmp_out : Option DiskFile) : BuildModuleOut :=
  if !includes_ok then ⟨fs, .error .includes_failed, 0⟩
  else
    let fs1 : BuildFs := { fs with tmp := tmp_out }
    if exit_ok then
      match tmp_out with
      | some f => ⟨⟨some f, none⟩, .ok (), 1⟩
      | none => ⟨fs1, .error .replace_failed, 1⟩
    else ⟨{ fs1 with tmp := none }, .error .compile_failed, 1⟩

/-- Observable filesystem states during `autobin._build_module`: before the
compile, after the compile subprocess, and after the final rename or
cleanup. An external interruption stops the run at one of the non-final
states. -/
def build_module_states (fs : BuildFs) (includes_ok exit_ok : Bool)
    (tmp_out : Option DiskFile) : List BuildFs :=
  if !includes_ok then [fs]
  else [fs, { fs with tmp := tmp_out },
    (build_module fs includes_ok exit_ok tmp_out).fs]

/-- One cache version directory as `builder.prune_cache` sees it: its path
and its modification time. -/
structure CacheDir where
  path : String
  mtime : Int
deriving DecidableEq

/-- Ordering used by `dirs.sort(key=mtime, reverse=True)`: newer (larger
mtime) first. -/
def mtime_desc (a b : CacheDir) : Prop := b.mtime ≤ a.mtime

instance : DecidableRel mtime_desc := fun a b => Int.decLe b.mtime a.mtime

instance : IsTotal CacheDir mtime_desc :=
  ⟨fun a b => le_total b.mtime a.mtime⟩

instance : IsTrans CacheDir mtime_desc :=
  ⟨fun _ _ _ hab hbc => le_trans hbc hab⟩

/-- The sort step of `builder.prune_cache` (a stable sort by modification
time, newest first; tie order is not relied upon by any claim). -/
def sort_by_mtime_desc (dirs : List CacheDir) : List CacheDir :=
  List.insertionSort mtime_desc dirs

/-- Age test of `builder.prune_cache`. The source computes
`(now - mtime) / 86400.0 > float(max_age_days)`; over integer seconds this
is equivalent to the division-free comparison below because `86400 > 0`. -/
def prune_too_old (now : Int) (max_age_days : Option Int) (d : CacheDir) : Bool :=
  match max_age_days with
  | none => false
  | some a => decide (a * 86400 < now - d.mtime)

/-- The enumeration loop of `builder.prune_cache` over the sorted
directory list: a directory is removed when its rank is at least
`max_versions` or it is over age, otherwise kept. Returns
`(removed, kept)`. -/
def prune_select (max_versions : Nat) (max_age_days : Option Int) (now : Int) :
    List CacheDir → Nat → List CacheDir × List CacheDir
  | [], _ => ([], [])
  | d :: rest, idx =>
    let r := prune_select max_versions max_age_days now rest (idx + 1)
    if decide (max_versions ≤ idx) || prune_too_old now max_age_days d then
      (d :: r.1, r.2)
    else (r.1, d :: r.2)

/-- Model of `builder.prune_cache`: sort by modification time descending,
then select. Returns the `(removed, kept)` report. -/
def prune_cache (dirs : List CacheDir) (max_versions : Nat)
    (max_age_days : Option Int) (now : Int) : List CacheDir × List CacheDir :=
  prune_select max_versions max_age_days now (sort_by_mtime_desc dirs) 0

/-- Model of the removal pass with its per-directory failure oracle: the
source removes with `shutil.rmtree(d, ignore_errors=True)`, so a failed
removal can shrink only the set of directories actually deleted, never the
report or the iteration. -/
def prune_cache_exec (dirs : List CacheDir) (max_versions : Nat)
    (max_age_days : Option Int) (now : Int) (rm_fails : CacheDir → Bool) :
    (List CacheDir × List CacheDir) × List CacheDir :=
  let r := prune_cache dirs max_versions max_age_days now
  (r, r.1.filter (fun d => !(rm_fails d)))

/-- Default fast-cache root computed by `autobin._default_cache_root`. -/
def default_cache_root (project_root : String) : String :=
  project_root ++ "/.binman/cache"

/-- Default durable prebuilt-store root computed by
`autobin._default_prebuilt_root`. -/
def default_prebuilt_root (project_root : String) : String :=
  project_root ++ "/assets/binaries"

/-- Root that `builder.prune_cache` actually prunes: the explicit
`cache_root` argument or, by default, the fast-cache root. -/
def prune_cache_base (project_root : String) (cache_root : Option String) :
    String :=
  cache_root.getD (default_cache_root project_root)

/-- Pointwise update of a string-keyed table with default values, the model
of one Python dictionary assignment. -/
def upd {α : Type} (f : String → α) (k : String) (v : α) : String → α :=
  fun x => if x = k then v else f x

/-- Watchdog state of `CppEngineWorker`: the active-engine list, the
per-engine consecutive-failure streaks and last-heal timestamps (dicts with
default zero, modelled as total functions), and the two tunables set in the
constructor. -/
structure WorkerState where
  active_engines : List String
  fail_streak : String → Int
  last_heal_ts : String → Int
  heal_threshold : Int
  heal_cooldown_s : Int

/-- Fresh watchdog state built by the `CppEngineWorker` constructor. -/
def init_worker_state : WorkerState :=
  { active_engines := [], fail_streak := fun _ => 0, last_heal_ts := fun _ => 0,
    heal_threshold := 3, heal_cooldown_s := 8 }

/-- Model of `CppEngineWorker._replace_active_engine`: substitute the old
engine in place when present, otherwise append the replacement unless it is
already listed. -/
def replace_active_engine (l : List String) (old_engine new_engine : String) :
    List String :=
  if old_engine ∈ l then l.map (fun e => if e = old_engine then new_engine else e)
  else if new_engine ∈ l then l
  else l ++ [new_engine]

/-- Model of `CppEngineWorker._try_self_heal_engine`. The `link` oracle is
the outcome of `bridge1.link_engine` for each engine name; the returned
flag records whether a heal attempt (a relink) actually happened, as
opposed to being suppressed by the cooldown. -/
def try_self_heal_engine (st : WorkerState) (name : String) (now : Int)
    (link : String → Bool) : WorkerState × Bool :=
  if now - st.last_heal_ts name < st.heal_cooldown_s then (st, false)
  else
    let st1 := { st with last_heal_ts := upd st.last_heal_ts name now }
    if link name then
      ({ st1 with fail_streak := upd st1.fail_streak name 0 }, true)
    else if name = "gpu_nvidia" ∧ link "gpu_others" = true then
      ({ st1 with
        active_engines :=
          replace_active_engine st1.active_engines "gpu_nvidia" "gpu_others"
        fail_streak := upd (upd st1.fail_streak name 0) "gpu_others" 0 }, true)
    else
      ({ st1 with
        fail_streak := upd st1.fail_streak name (st.heal_threshold - 1) }, true)

/-- Model of `CppEngineWorker._mark_engine_fail`: bump the streak and, when
it reaches the threshold, evaluate a self-heal. -/
def mark_engine_fail (st : WorkerState) (name : String) (now : Int)
    (link : String → Bool) : WorkerState × Bool :=
  let streak := st.fail_streak name + 1
  let st1 := { st with fail_streak := upd st.fail_streak name streak }
  if st.heal_threshold ≤ streak then try_self_heal_engine st1 name now link
  else (st1, false)

/-- Concrete watchdog streak table used by the C4 witness. -/
def w_streaks : String → Int := fun n => if n = "gpu_nvidia" then 2 else 0

/-- Concrete watchdog state used by the C4 witness. -/
def w_wd_state : WorkerState :=
  { active_engines := ["cpu", "gpu_nvidia"], fail_streak := w_streaks,
    last_heal_ts := fun _ => 0, heal_threshold := 3, heal_cooldown_s := 8 }

/-- Concrete link oracle used by the C4 witness: only the fallback engine
links. -/
def w_link : String → Bool := fun n => n == "gpu_others"

/-- Linker state of `CppHandler1`: the registry of loaded engines, the
failure-reason table, and the set of engines for which the one-shot hotfix
has already been attempted in this process lifetime. -/
structure LinkState where
  loaded_engines : List String
  link_failures : List (String × String)
  hotfix_attempted : List String
deriving DecidableEq

/-- Dictionary assignment `link_failures[name] = reason`. -/
def set_failure (l : List (String × String)) (k v : String) :
    List (String × String) :=
  (k, v) :: l.filter (fun p => !(p.1 == k))

/-- Dictionary removal `link_failures.pop(name, None)`. -/
def pop_failure (l : List (String × String)) (k : String) :
    List (String × String) :=
  l.filter (fun p => !(p.1 == k))

/-- Registration `loaded_engines[name] = module` (the module handle itself
is opaque; only the registered name matters to the claims). -/
def add_loaded (l : List String) (k : String) : List String :=
  if k ∈ l then l else k :: l

/-- Fresh linker state built by the `CppHandler1` constructor. -/
def init_link_state : LinkState := ⟨[], [], []⟩

/-- Oracles for one `link_engine` call: binary presence at each check, the
outcome of each dynamic import (an exception carries its message), and the
hotfix-build outcome. -/
structure LinkEnv where
  binary_exists : Bool
  import1 : Except String Unit
  hotfix_build_raises : Bool
  binary_ready_after : Bool
  binary_exists2 : Bool
  import2 : Except String Unit
deriving DecidableEq

/-- Model of `CppHandler1._link_engine_once`: a missing binary records a
failure and returns false without raising; an import error propagates to
the caller; a successful import registers the module and clears the
failure entry. -/
def link_engine_once (st : LinkState) (name : String) (binexists : Bool)
    (imp : Except String Unit) : Except String (Bool × LinkState) :=
  if !binexists then
    .ok (false,
      { st with
        link_failures := set_failure st.link_failures name "binary not found" })
  else
    match imp with
    | .error e => .error e
    | .ok _ =>
      .ok (true,
        { st with
          loaded_engines := add_loaded st.loaded_engines name
          link_failures := pop_failure st.link_failures name })

/-- The recoverable-error markers of
`CppHandler1._looks_recoverable_link_error`. -/
def recoverable_markers : List String :=
  ["python version mismatch", "undefined symbol", "wrong elf class",
    "invalid elf header", "cannot open shared object file", "file too short"]

/-- Containment of `p` as a contiguous substring of `l` (Python `in` on
strings). -/
def contains_sub (l p : List Char) : Bool :=
  match l with
  | [] => p.isEmpty
  | c :: t => p.isPrefixOf (c :: t) || contains_sub t p

/-- Model of `CppHandler1._looks_recoverable_link_error`: lower the error
text and look for any marker. -/
def looks_recoverable_link_error (e : String) : Bool :=
  recoverable_markers.any (fun m => contains_sub (py_lower e.data) m.data)

/-- Arguments `CppHandler1._run_self_hotfix_build` passes to the Build
Orchestrator `builder.build_all`: compile-only, prefer-cache, and no
`names` restriction (every engine in the engines directory is rebuilt). -/
structure BuildAllArgs where
  compile_only : Bool
  policy : String
  names : Option (List String)
deriving DecidableEq

/-- The actual delegation arguments in the source. -/
def hotfix_build_args : BuildAllArgs :=
  { compile_only := true, policy := "prefer_cache", names := none }

/-- Result of `CppHandler1._run_self_hotfix_build`: success flag, state
afterwards, and whether a rebuild was attempted (the guard was passed). -/
structure HotfixOut where
  ok : Bool
  st : LinkState
  attempted : Bool
deriving DecidableEq

/-- Model of `CppHandler1._run_self_hotfix_build`: a second attempt for the
same engine is refused outright; otherwise the engine is marked attempted,
the orchestrator runs (its own exceptions are swallowed), and success means
the binary exists afterwards. -/
def run_self_hotfix_build (st : LinkState) (name : String) (env : LinkEnv) :
    HotfixOut :=
  if name ∈ st.hotfix_attempted then ⟨false, st, false⟩
  else
    let st1 := { st with hotfix_attempted := name :: st.hotfix_attempted }
    if env.hotfix_build_raises then ⟨false, st1, true⟩
    else ⟨env.binary_ready_after, st1, true⟩

/-- Result of one `CppHandler1.link_engine` call: the boolean the caller
sees, the state afterwards, whether a hotfix rebuild was attempted, and how
many times `_link_engine_once` ran. -/
structure LinkOut where
  ok : Bool
  st : LinkState
  hotfix_attempted : Bool
  link_attempts : Nat
deriving DecidableEq

/-- Model of `CppHandler1.link_engine`: one link attempt; on an exception
the failure is recorded and, if the error text is recoverable, the one-shot
hotfix build runs and the link is retried exactly once; every exception is
consumed and a boolean returned. -/
def link_engine (st : LinkState) (name : String) (env : LinkEnv) : LinkOut :=
  match link_engine_once st name env.binary_exists env.import1 with
  | .ok (b, st') => ⟨b, st', false, 1⟩
  | .error e =>
    let st2 := { st with link_failures := set_failure st.link_failures name e }
    if looks_recoverable_link_error e then
      let h := run_self_hotfix_build st2 name env
      if h.ok then
        match link_engine_once h.st name env.binary_exists2 env.import2 with
        | .ok (true, st4) =>
          ⟨true, { st4 with link_failures := pop_failure st4.link_failures name },
            h.attempted, 2⟩
        | .ok (false, st4) => ⟨false, st4, h.attempted, 2⟩
        | .error e2 =>
          ⟨false,
            { h.st with link_failures := set_failure h.st.link_failures name e2 },
            h.attempted, 2⟩
      else ⟨false, h.st, h.attempted, 1⟩
    else ⟨false, st2, false, 1⟩

/-- One process lifetime as a sequence of `link_engine` calls; returns the
final state and the list of engines for which a hotfix rebuild was
attempted, with multiplicity. -/
def link_calls : LinkState → List (String × LinkEnv) → LinkState × List String
  | st, [] => (st, [])
  | st, (name, env) :: rest =>
    let out := link_engine st name env
    let r := link_calls out.st rest
    (r.1, (if out.hotfix_attempted then [name] else []) ++ r.2)

/-- Concrete link-call oracles for the C3 witness: a recoverable link
error, a successful hotfix rebuild, and a retry that fails again. -/
def w_linkenv_hotfix : LinkEnv :=
  { binary_exists := true, import1 := .error "undefined symbol: gpu_probe",
    hotfix_build_raises := false, binary_ready_after := true,
    binary_exists2 := true, import2 := .error "undefined symbol: gpu_probe" }

/-- Concrete link-call oracles for the C10 witness: the binary exists
and imports cleanly. -/
def w_linkenv_ok : LinkEnv :=
  { binary_exists := true, import1 := .ok (), hotfix_build_raises := false,
    binary_ready_after := false, binary_exists2 := false, import2 := .ok () }

/-- Concrete link-call oracles for the C10 witness: the binary is
missing. -/
def w_linkenv_missing : LinkEnv :=
  { binary_exists := false, import1 := .ok (), hotfix_build_raises := false,
    binary_ready_after := false, binary_exists2 := false, import2 := .ok () }

theorem sanitize_char_safe (c : Char) : safe_char (sanitize_char c) = true := by
  by_cases h : safe_char c = true
  · simp [sanitize_char, h]
  · simp [sanitize_char, h]
    decide

theorem map_sanitize_of_safe (l : List Char) (h : l.all safe_char = true) :
    l.map sanitize_char = l := by
  induction l with
  | nil => rfl
  | cons c t ih =>
    simp only [List.all_cons, Bool.and_eq_true] at h
    simp [sanitize_char, h.1, ih h.2]

theorem soabi_or_default_safe (s : String) (h : s.data.all safe_char = true) :
    (soabi_or_default s).data.all safe_char = true := by
  by_cases he : s = ""
  · simp [soabi_or_default, he]; decide
  · simpa [soabi_or_default, he] using h

theorem soabi_or_default_of_ne (s : String) (h : s ≠ "") :
    soabi_or_default s = s := by
  simp [soabi_or_default, h]

theorem cache_key_raw_safe (i : RuntimeInfo) (h : safe_info i = true) :
    (cache_key_raw i).all safe_char = true := by
  simp only [safe_info, Bool.and_eq_true] at h
  obtain ⟨⟨⟨h1, h2⟩, h3⟩, h4⟩ := h
  simp [cache_key_raw, List.all_append, h1, h3, h4, soabi_or_default_safe _ h2]
  decide

theorem cache_key_raw_shape (i : RuntimeInfo) :
    cache_key_raw i =
      "py".data ++ (i.python_version.data ++ ('-' ::
        ((soabi_or_default i.python_soabi).data ++ ('-' ::
          (i.system.data ++ ('-' :: i.machine.data)))))) := by
  simp [cache_key_raw, List.append_assoc]

theorem raw_of_key_eq (i₁ i₂ : RuntimeInfo) (h₁ : safe_info i₁ = true)
    (h₂ : safe_info i₂ = true) (h : cache_key i₁ = cache_key i₂) :
    cache_key_raw i₁ = cache_key_raw i₂ := by
  have h' : (cache_key_raw i₁).map sanitize_char = (cache_key_raw i₂).map sanitize_char :=
    congrArg String.data h
  rwa [map_sanitize_of_safe _ (cache_key_raw_safe _ h₁),
    map_sanitize_of_safe _ (cache_key_raw_safe _ h₂)] at h'

theorem key_ne_of_one_field_ne (i₁ i₂ : RuntimeInfo) (h₁ : safe_info i₁ = true)
    (h₂ : safe_info i₂ = true) (hn₁ : i₁.python_soabi ≠ "")
    (hn₂ : i₂.python_soabi ≠ "") (hd : differ_in_one_field i₁ i₂) :
    cache_key i₁ ≠ cache_key i₂ := by
  intro h
  have hraw := raw_of_key_eq i₁ i₂ h₁ h₂ h
  rw [cache_key_raw_shape, cache_key_raw_shape] at hraw
  rcases hd with ⟨hv, hs, hy, hm⟩ | ⟨hv, hs, hy, hm⟩ | ⟨hv, hs, hy, hm⟩ | ⟨hv, hs, hy, hm⟩
  · rw [hs, hy, hm] at hraw
    exact hv (congrArg String.mk
      (List.append_cancel_right (List.append_cancel_left hraw)))
  · rw [hv, hy, hm, soabi_or_default_of_ne _ hn₁, soabi_or_default_of_ne _ hn₂] at hraw
    have step := List.append_cancel_left (List.append_cancel_left hraw)
    simp only [List.cons.injEq, true_and] at step
    exact hs (congrArg String.mk (List.append_cancel_right step))
  · rw [hv, hs, hm] at hraw
    have step := List.append_cancel_left (List.append_cancel_left hraw)
    simp only [List.cons.injEq, true_and] at step
    have step2 := List.append_cancel_left step
    simp only [List.cons.injEq, true_and] at step2
    exact hy (congrArg String.mk (List.append_cancel_right step2))
  · rw [hv, hs, hy] at hraw
    have step := List.append_cancel_left (List.append_cancel_left hraw)
    simp only [List.cons.injEq, true_and] at step
    have step2 := List.append_cancel_left step
    simp only [List.cons.injEq, true_and] at step2
    have step3 := List.append_cancel_left step2
    simp only [List.cons.injEq, true_and] at step3
    exact hm (congrArg String.mk step3)

theorem manifest_field_ok_iff (current : String) (field : Option String) :
    manifest_field_ok current field = true ↔
      ∀ v, field = some v → strip_lower v ≠ "" →
        strip_lower v = strip_lower current := by
  cases field with
  | none => simp [manifest_field_ok]
  | some v =>
    by_cases he : strip_lower v = ""
    · simp [manifest_field_ok, he]
    · simp [manifest_field_ok, he]

/-- Claim C6 (amended): the cache key is pure and stable (equal fingerprints
give equal keys); every character of the key is in the sanitizer-safe set
`[A-Za-z0-9_.-]`; and two fingerprints that differ in exactly one field give
different keys, provided every field is made of sanitizer-safe characters
and the ABI tags are non-empty. -/
theorem C6_cache_key_pure_sanitized_injective :
    (∀ i₁ i₂ : RuntimeInfo, i₁ = i₂ → cache_key i₁ = cache_key i₂) ∧
    (∀ i : RuntimeInfo, ∀ c ∈ (cache_key i).data, safe_char c = true) ∧
    (∀ i₁ i₂ : RuntimeInfo, safe_info i₁ = true → safe_info i₂ = true →
      i₁.python_soabi ≠ "" → i₂.python_soabi ≠ "" →
      differ_in_one_field i₁ i₂ → cache_key i₁ ≠ cache_key i₂) := by
  refine ⟨fun i₁ i₂ h => by rw [h], fun i c hc => ?_, key_ne_of_one_field_ne⟩
  have : (cache_key i).data = (cache_key_raw i).map sanitize_char := rfl
  rw [this] at hc
  obtain ⟨d, _, rfl⟩ := List.mem_map.mp hc
  exact sanitize_char_safe d

/-- Witness for C6: two all-safe fingerprints differing only in the CPU
architecture have different keys. -/
theorem C6_cache_key_witness :
    cache_key (RuntimeInfo.mk "3.12" "abi3" "linux" "x86_64") ≠
      cache_key (RuntimeInfo.mk "3.12" "abi3" "linux" "aarch64") :=
  C6_cache_key_pure_sanitized_injective.2.2 _ _ (by decide) (by decide)
    (by decide) (by decide)
    (Or.inr (Or.inr (Or.inr ⟨rfl, rfl, rfl, by decide⟩)))

/-- Counterexample for C6 as stated: an empty ABI tag is rendered as the
literal string `no-soabi`, so two fingerprints differing in the ABI-tag
field can share one cache key. -/
theorem C6_cache_key_counterexample :
    (RuntimeInfo.mk "3.12" "" "linux" "x86_64").python_soabi ≠
        (RuntimeInfo.mk "3.12" "no-soabi" "linux" "x86_64").python_soabi ∧
      cache_key (RuntimeInfo.mk "3.12" "" "linux" "x86_64") =
        cache_key (RuntimeInfo.mk "3.12" "no-soabi" "linux" "x86_64") := by
  constructor
  · decide
  · rfl

/-- Claim C7 (amended): an absent, malformed or empty manifest is
compatible; otherwise the manifest is compatible exactly when every
fingerprint field present in it that is non-blank after whitespace
stripping equals the current field under stripped, case-insensitive
comparison. -/
theorem C7_manifest_compatible_characterised (info : RuntimeInfo)
    (m : ManifestData) :
    is_manifest_compatible info (read_manifest .absent) = true ∧
    is_manifest_compatible info (read_manifest .malformed) = true ∧
    (is_manifest_compatible info m = true ↔
      ((∀ v, m.python_version = some v → strip_lower v ≠ "" →
          strip_lower v = strip_lower info.python_version) ∧
       (∀ v, m.python_soabi = some v → strip_lower v ≠ "" →
          strip_lower v = strip_lower info.python_soabi) ∧
       (∀ v, m.system = some v → strip_lower v ≠ "" →
          strip_lower v = strip_lower info.system) ∧
       (∀ v, m.machine = some v → strip_lower v ≠ "" →
          strip_lower v = strip_lower info.machine))) := by
  refine ⟨rfl, rfl, ?_⟩
  by_cases hm : manifest_is_empty m = true
  · have hm' := hm
    simp only [manifest_is_empty, Bool.and_eq_true, beq_iff_eq] at hm'
    obtain ⟨⟨⟨⟨h1, h2⟩, h3⟩, h4⟩, _⟩ := hm'
    simp [is_manifest_compatible, hm, h1, h2, h3, h4]
  · simp [is_manifest_compatible, hm, Bool.and_eq_true, manifest_field_ok_iff,
      and_assoc]

/-- Counterexample for C7 as stated: the source compares fields after
stripping surrounding whitespace, so a manifest field equal to the current
one up to padding is accepted even though it is not case-insensitively
equal to it. -/
theorem C7_manifest_compatible_counterexample :
    is_manifest_compatible (RuntimeInfo.mk "3.12" "abi3" "linux" "x86_64")
        (ManifestData.mk none none (some " linux ") none []) = true ∧
      spec_manifest_compatible_c7 (RuntimeInfo.mk "3.12" "abi3" "linux" "x86_64")
        (ManifestData.mk none none (some " linux ") none []) = false := by
  decide

@[simp]
theorem restore_target_target (env : ResolveEnv) (fs : FsState)
    (f : Option DiskFile) : (restore_target env fs f).target = f := by
  unfold restore_target
  split <;> rfl

@[simp]
theorem restore_target_cpp (env : ResolveEnv) (fs : FsState)
    (f : Option DiskFile) : (restore_target env fs f).cpp_mtime = fs.cpp_mtime := by
  unfold restore_target
  split <;> rfl

@[simp]
theorem backup_prebuilt_target (env : ResolveEnv) (fs : FsState) :
    (backup_prebuilt env fs).target = fs.target := by
  unfold backup_prebuilt
  split <;> simp_all

@[simp]
theorem backup_prebuilt_sidecar (env : ResolveEnv) (fs : FsState) :
    (backup_prebuilt env fs).target_sidecar = fs.target_sidecar := by
  unfold backup_prebuilt
  split <;> rfl

@[simp]
theorem backup_prebuilt_cpp (env : ResolveEnv) (fs : FsState) :
    (backup_prebuilt env fs).cpp_mtime = fs.cpp_mtime := by
  unfold backup_prebuilt
  split <;> rfl

theorem manifest_is_empty_false_of_mismatch {f : Option DiskFile}
    {m : ManifestData} {n : String} (h : hash_mismatch_recorded f m n = true) :
    manifest_is_empty m = false := by
  cases hl : m.hashes with
  | nil =>
    exfalso
    have he : strip_lower ((m.hashes.lookup n).getD "") = "" := by
      rw [hl]; rfl
    simp [hash_mismatch_recorded, he] at h
  | cons a t => simp [manifest_is_empty, hl]

theorem copy_false_of_mismatch {f : Option DiskFile} {m : ManifestData}
    {n : String} (cpp : Int) (h : hash_mismatch_recorded f m n = true) :
    copy_if_fresh_verified f cpp m n = false := by
  cases f with
  | none => rfl
  | some df =>
    simp only [hash_mismatch_recorded, Bool.and_eq_true, bne_iff_ne, ne_eq] at h
    obtain ⟨he, hne⟩ := h
    simp [copy_if_fresh_verified, he, hne]

theorem key_unusable_of_mismatch (env : ResolveEnv) (fs : FsState)
    (h : hash_mismatch_recorded fs.prebuilt_key fs.prebuilt_key_manifest
      env.bin_name = true) : prebuilt_key_usable env fs = false := by
  have hne := manifest_is_empty_false_of_mismatch h
  have hc := copy_false_of_mismatch fs.cpp_mtime h
  simp [prebuilt_key_usable, manifest_ok, hne, hc]

theorem plain_unusable_of_mismatch (env : ResolveEnv) (fs : FsState)
    (h : hash_mismatch_recorded fs.prebuilt_plain fs.prebuilt_plain_manifest
      env.bin_name = true) : prebuilt_plain_usable env fs = false := by
  have hne := manifest_is_empty_false_of_mismatch h
  have hc := copy_false_of_mismatch fs.cpp_mtime h
  simp [prebuilt_plain_usable, manifest_ok, hne, hc]

theorem try_prebuilt_of_mismatches (env : ResolveEnv) (fs : FsState)
    (hk : hash_mismatch_recorded fs.prebuilt_key fs.prebuilt_key_manifest
      env.bin_name = true)
    (hp : hash_mismatch_recorded fs.prebuilt_plain fs.prebuilt_plain_manifest
      env.bin_name = true) : try_prebuilt env fs = (false, fs) := by
  simp [try_prebuilt, key_unusable_of_mismatch env fs hk,
    plain_unusable_of_mismatch env fs hp]

theorem do_build_result (env : ResolveEnv) (fs : FsState) :
    (do_build env fs).result = .ok .rebuilt ∨
      (do_build env fs).result = .error .build_failed := by
  unfold do_build
  split <;> simp

theorem do_build_invoked (env : ResolveEnv) (fs : FsState) :
    (do_build env fs).build_invoked = true := by
  unfold do_build
  split <;> rfl

/-- Claim C1: whenever the durable-store manifest records a content hash for
the candidate binary filename and the live file hashes differently, the
copy out of that store location is skipped; with both store locations in
that state, no policy ever reports a restore, and under `prefer_prebuilt`
resolution falls through to the fast cache and then to a build. -/
theorem C1_hash_mismatch_never_restored :
    (∀ (src : Option DiskFile) (cpp_mtime : Int) (m : ManifestData)
      (name : String), hash_mismatch_recorded src m name = true →
        copy_if_fresh_verified src cpp_mtime m name = false) ∧
    (∀ (env : ResolveEnv) (fs : FsState),
      hash_mismatch_recorded fs.prebuilt_key fs.prebuilt_key_manifest
        env.bin_name = true →
      hash_mismatch_recorded fs.prebuilt_plain fs.prebuilt_plain_manifest
        env.bin_name = true →
      (∀ policy : LoadPolicy, (load policy env fs).result ≠ .ok .restored) ∧
      ((load .prefer_prebuilt env fs).result = .ok .up_to_date ∨
        (load .prefer_prebuilt env fs).build_invoked = true)) := by
  constructor
  · intro src cpp m name h
    exact copy_false_of_mismatch cpp h
  · intro env fs hk hp
    have htp := try_prebuilt_of_mismatches env fs hk hp
    constructor
    · intro policy
      cases policy with
      | build_only =>
        rcases do_build_result env fs with h | h <;> simp [load, h]
      | prebuilt_only => simp [load, htp]
      | prefer_cache =>
        by_cases hc : try_cache env fs = true
        · simp [load, hc]
        · simp only [load, hc, Bool.false_eq_true, if_false, htp]
          rcases do_build_result env fs with h | h <;> simp [h]
      | prefer_prebuilt =>
        by_cases hc : try_cache env fs = true
        · simp [load, htp, hc]
        · simp only [load, htp, hc, Bool.false_eq_true, if_false]
          rcases do_build_result env fs with h | h <;> simp [h]
    · by_cases hc : try_cache env fs = true
      · simp [load, htp, hc]
      · simp only [load, htp, hc, Bool.false_eq_true, if_false]
        exact Or.inr (do_build_invoked env fs)

/-- Witness for C1 at a concrete tampered store: both hypotheses hold and
the prefer-prebuilt resolution does not restore. -/
theorem C1_hash_mismatch_witness :
    hash_mismatch_recorded w_fs_tampered.prebuilt_key
        w_fs_tampered.prebuilt_key_manifest w_env.bin_name = true ∧
      hash_mismatch_recorded w_fs_tampered.prebuilt_plain
        w_fs_tampered.prebuilt_plain_manifest w_env.bin_name = true ∧
      (load .prefer_prebuilt w_env w_fs_tampered).result ≠ .ok .restored :=
  ⟨by decide, by decide,
    (C1_hash_mismatch_never_restored.2 w_env w_fs_tampered (by decide)
      (by decide)).1 .prefer_prebuilt⟩

/-- Claim C5: under `prebuilt_only` the build step is never invoked; the
outcome is either a restore or the no-compatible-prebuilt error; the error
occurs exactly when neither durable-store location is usable; and the
key-scoped location takes precedence over the plain one. -/
theorem C5_prebuilt_only_never_builds (env : ResolveEnv) (fs : FsState) :
    (load .prebuilt_only env fs).build_invoked = false ∧
    ((load .prebuilt_only env fs).result = .ok .restored ∨
      (load .prebuilt_only env fs).result = .error .no_compatible_prebuilt) ∧
    ((load .prebuilt_only env fs).result = .error .no_compatible_prebuilt ↔
      (prebuilt_key_usable env fs = false ∧ prebuilt_plain_usable env fs = false)) ∧
    (prebuilt_key_usable env fs = true →
      (load .prebuilt_only env fs).fs.target = fs.prebuilt_key) ∧
    (prebuilt_key_usable env fs = false → prebuilt_plain_usable env fs = true →
      (load .prebuilt_only env fs).fs.target = fs.prebuilt_plain) := by
  by_cases hk : prebuilt_key_usable env fs = true
  · simp [load, try_prebuilt, hk]
  · by_cases hp : prebuilt_plain_usable env fs = true
    · simp [load, try_prebuilt, hk, hp]
    · simp [load, try_prebuilt, hk, hp]

/-- Witness for C5 at a concrete store where the key-scoped entry is
usable: no build is invoked and the target receives the key-scoped
binary. -/
theorem C5_prebuilt_only_witness :
    (load .prebuilt_only w_env w_fs_key_ok).build_invoked = false ∧
      (load .prebuilt_only w_env w_fs_key_ok).fs.target =
        w_fs_key_ok.prebuilt_key :=
  ⟨(C5_prebuilt_only_never_builds w_env w_fs_key_ok).1,
    (C5_prebuilt_only_never_builds w_env w_fs_key_ok).2.2.2.1 (by decide)⟩

theorem copy_true_spec {f : Option DiskFile} {cpp : Int} {m : ManifestData}
    {n : String} (h : copy_if_fresh_verified f cpp m n = true) :
    ∃ df, f = some df ∧ cpp ≤ df.mtime := by
  cases f with
  | none => simp [copy_if_fresh_verified] at h
  | some df =>
    refine ⟨df, rfl, ?_⟩
    by_contra hlt
    have hlt' : df.mtime < cpp := by omega
    simp [copy_if_fresh_verified, hlt'] at h

theorem try_cache_intro (env : ResolveEnv) (fs : FsState) (df : DiskFile)
    (ht : fs.target = some df) (hm : ¬ df.mtime < fs.cpp_mtime)
    (hg : env.abi_guard = true →
      is_abi_compatible fs.target_sidecar env.info env.signature = true) :
    try_cache env fs = true := by
  simp only [try_cache, ht]
  rw [if_neg hm]
  by_cases hgg : env.abi_guard = true
  · simp [hgg, hg hgg]
  · simp [Bool.not_eq_true] at hgg
    simp [hgg]

theorem try_cache_congr (env₁ env₂ : ResolveEnv) (fs₁ fs₂ : FsState)
    (habi : env₂.abi_guard = env₁.abi_guard) (hinfo : env₂.info = env₁.info)
    (hsig : env₂.signature = env₁.signature) (ht : fs₂.target = fs₁.target)
    (hsc : fs₂.target_sidecar = fs₁.target_sidecar)
    (hcp : fs₂.cpp_mtime = fs₁.cpp_mtime) :
    try_cache env₂ fs₂ = try_cache env₁ fs₁ := by
  simp only [try_cache, habi, hinfo, hsig, ht, hsc, hcp]

theorem do_build_fs_cpp (env : ResolveEnv) (fs : FsState) :
    (do_build env fs).fs.cpp_mtime = fs.cpp_mtime := by
  unfold do_build
  split <;> (try rfl)
  split <;> split <;> simp

theorem do_build_fs_target (env : ResolveEnv) (fs : FsState)
    (h : env.build_ok = true) :
    (do_build env fs).fs.target = some ⟨env.build_mtime, env.build_hash⟩ := by
  simp only [do_build, h, if_true]
  split <;> split <;> simp

theorem do_build_fs_sidecar (env : ResolveEnv) (fs : FsState)
    (h : env.build_ok = true) (hg : env.abi_guard = true) :
    (do_build env fs).fs.target_sidecar = some ⟨env.info, some env.signature⟩ := by
  simp only [do_build, h, if_true, hg]
  split <;> simp

theorem load_prefer_cache_hit (env : ResolveEnv) (fs : FsState)
    (h : try_cache env fs = true) :
    (load .prefer_cache env fs).result = .ok .up_to_date ∧
      (load .prefer_cache env fs).build_invoked = false := by
  simp [load, h]

/-- Claim C9: a second `prefer_cache` resolve straight after a successful
one, with the source file and fingerprint unchanged, reports `up_to_date`
or `restored` and never invokes the build step. -/
theorem C9_prefer_cache_idempotent (env₁ env₂ : ResolveEnv) (fs : FsState)
    (s₁ : BuildStatus) (habi : env₂.abi_guard = env₁.abi_guard)
    (hinfo : env₂.info = env₁.info) (hsig : env₂.signature = env₁.signature)
    (hmt : fs.cpp_mtime ≤ env₁.build_mtime)
    (h1 : (load .prefer_cache env₁ fs).result = .ok s₁) :
    ((load .prefer_cache env₂ (load .prefer_cache env₁ fs).fs).result =
        .ok .up_to_date ∨
      (load .prefer_cache env₂ (load .prefer_cache env₁ fs).fs).result =
        .ok .restored) ∧
    (load .prefer_cache env₂ (load .prefer_cache env₁ fs).fs).build_invoked =
      false := by
  have key : try_cache env₂ (load .prefer_cache env₁ fs).fs = true := by
    by_cases hc : try_cache env₁ fs = true
    · have hfs : (load .prefer_cache env₁ fs).fs =
          (if env₁.abi_guard && env₁.save_prebuilt then backup_prebuilt env₁ fs
            else fs) := by
        simp [load, hc]
      rw [hfs]
      have ht : (if env₁.abi_guard && env₁.save_prebuilt then
          backup_prebuilt env₁ fs else fs).target = fs.target := by
        split <;> simp
      have hsc : (if env₁.abi_guard && env₁.save_prebuilt then
          backup_prebuilt env₁ fs else fs).target_sidecar = fs.target_sidecar := by
        split <;> simp
      have hcp : (if env₁.abi_guard && env₁.save_prebuilt then
          backup_prebuilt env₁ fs else fs).cpp_mtime = fs.cpp_mtime := by
        split <;> simp
      rw [try_cache_congr env₁ env₂ fs _ habi hinfo hsig ht hsc hcp]
      exact hc
    · by_cases hk : prebuilt_key_usable env₁ fs = true
      · have hfs : (load .prefer_cache env₁ fs).fs =
            restore_target env₁ fs fs.prebuilt_key := by
          simp [load, hc, try_prebuilt, hk]
        have hcopy : copy_if_fresh_verified fs.prebuilt_key fs.cpp_mtime
            (manifest_ok env₁.info fs.prebuilt_key_manifest).2 env₁.bin_name = true := by
          have h' := hk
          simp only [prebuilt_key_usable, Bool.and_eq_true] at h'
          exact h'.2
        obtain ⟨df, hdf, hmle⟩ := copy_true_spec hcopy
        rw [hfs]
        apply try_cache_intro env₂ _ df
        · rw [restore_target_target, hdf]
        · rw [restore_target_cpp]; omega
        · intro hg2
          have hg1 : env₁.abi_guard = true := by rw [← habi]; exact hg2
          simp [restore_target, hg1, is_abi_compatible, hinfo, hsig]
      · by_cases hpl : prebuilt_plain_usable env₁ fs = true
        · have hfs : (load .prefer_cache env₁ fs).fs =
              restore_target env₁ fs fs.prebuilt_plain := by
            simp [load, hc, try_prebuilt, hk, hpl]
          have hcopy : copy_if_fresh_verified fs.prebuilt_plain fs.cpp_mtime
              (manifest_ok env₁.info fs.prebuilt_plain_manifest).2 env₁.bin_name = true := by
            have h' := hpl
            simp only [prebuilt_plain_usable, Bool.and_eq_true] at h'
            exact h'.2
          obtain ⟨df, hdf, hmle⟩ := copy_true_spec hcopy
          rw [hfs]
          apply try_cache_intro env₂ _ df
          · rw [restore_target_target, hdf]
          · rw [restore_target_cpp]; omega
          · intro hg2
            have hg1 : env₁.abi_guard = true := by rw [← habi]; exact hg2
            simp [restore_target, hg1, is_abi_compatible, hinfo, hsig]
        · have hload : load .prefer_cache env₁ fs = do_build env₁ fs := by
            simp [load, hc, try_prebuilt, hk, hpl]
          have hok : env₁.build_ok = true := by
            by_contra hbo
            simp [Bool.not_eq_true] at hbo
            have : (do_build env₁ fs).result = .error .build_failed := by
              simp [do_build, hbo]
            rw [hload, this] at h1
            exact Except.noConfusion h1
          rw [hload]
          apply try_cache_intro env₂ _ ⟨env₁.build_mtime, env₁.build_hash⟩
          · exact do_build_fs_target env₁ fs hok
          · rw [do_build_fs_cpp]
            simp only [not_lt]
            exact hmt
          · intro hg2
            have hg1 : env₁.abi_guard = true := by rw [← habi]; exact hg2
            rw [do_build_fs_sidecar env₁ fs hok hg1]
            simp [is_abi_compatible, hinfo, hsig]
  have out := load_prefer_cache_hit env₂ (load .prefer_cache env₁ fs).fs key
  exact ⟨Or.inl out.1, out.2⟩

/-- Witness for C9 at a concrete first resolve that rebuilds: the second
resolve reports up-to-date without invoking the build. -/
theorem C9_prefer_cache_witness :
    (load .prefer_cache w_env
        (load .prefer_cache w_env w_fs_tampered).fs).build_invoked = false :=
  (C9_prefer_cache_idempotent w_env w_env w_fs_tampered .rebuilt rfl rfl rfl
    (by decide) (by decide)).2

/-- Claim C2: the toolchain runs exactly once (and not at all when include
detection fails first); on a non-zero exit the temporary file is deleted,
the live path is untouched and an error is raised; a success renames the
compiler output onto the live path; and in every observable state before
the final rename the live path still holds its original content, so an
interrupted build never leaves a corrupt binary there. -/
theorem C2_build_atomic (fs : BuildFs) (includes_ok exit_ok : Bool)
    (tmp_out : Option DiskFile) :
    ((build_module fs includes_ok exit_ok tmp_out).compiler_calls ≤ 1 ∧
      (includes_ok = true →
        (build_module fs includes_ok exit_ok tmp_out).compiler_calls = 1)) ∧
    (includes_ok = true → exit_ok = false →
      (build_module fs includes_ok exit_ok tmp_out).fs.live = fs.live ∧
      (build_module fs includes_ok exit_ok tmp_out).fs.tmp = none ∧
      (build_module fs includes_ok exit_ok tmp_out).result =
        .error .compile_failed) ∧
    ((build_module fs includes_ok exit_ok tmp_out).result = .ok () →
      exit_ok = true ∧ ∃ f, tmp_out = some f ∧
        (build_module fs includes_ok exit_ok tmp_out).fs.live = some f ∧
        (build_module fs includes_ok exit_ok tmp_out).fs.tmp = none) ∧
    (∀ s ∈ (build_module_states fs includes_ok exit_ok tmp_out).dropLast,
      s.live = fs.live) ∧
    (includes_ok = false →
      (build_module fs includes_ok exit_ok tmp_out).fs = fs ∧
      (build_module fs includes_ok exit_ok tmp_out).compiler_calls = 0) := by
  cases includes_ok with
  | false => simp [build_module, build_module_states]
  | true =>
    cases exit_ok with
    | false => simp [build_module, build_module_states]
    | true =>
      cases tmp_out with
      | none => simp [build_module, build_module_states]
      | some f => simp [build_module, build_module_states]

/-- Witness for C2 at a failed compile over a populated live path: the
live binary is untouched, the temporary file is gone and the error is
surfaced. -/
theorem C2_build_atomic_witness :
    (build_module ⟨some ⟨3, "old"⟩, none⟩ true false
        (some ⟨9, "partial"⟩)).fs.live = some ⟨3, "old"⟩ ∧
      (build_module ⟨some ⟨3, "old"⟩, none⟩ true false
        (some ⟨9, "partial"⟩)).fs.tmp = none :=
  ⟨((C2_build_atomic ⟨some ⟨3, "old"⟩, none⟩ true false
      (some ⟨9, "partial"⟩)).2.1 rfl rfl).1,
    ((C2_build_atomic ⟨some ⟨3, "old"⟩, none⟩ true false
      (some ⟨9, "partial"⟩)).2.1 rfl rfl).2.1⟩

theorem prune_select_spec (k : Nat) (age : Option Int) (now : Int) :
    ∀ (s : List CacheDir) (i : Nat),
      prune_select k age now s i =
        (((List.enumFrom i s).filter
            (fun p => decide (k ≤ p.1) || prune_too_old now age p.2)).map Prod.snd,
         ((List.enumFrom i s).filter
            (fun p => !(decide (k ≤ p.1) || prune_too_old now age p.2))).map Prod.snd) := by
  intro s
  induction s with
  | nil => intro i; rfl
  | cons d rest ih =>
    intro i
    by_cases hc : (decide (k ≤ i) || prune_too_old now age d) = true
    · have hcn : (!decide (k ≤ i) && !prune_too_old now age d) = false := by
        rw [← Bool.not_or, hc]; rfl
      simp [prune_select, List.enumFrom, hc, hcn, ih (i + 1)]
    · have hcb : (decide (k ≤ i) || prune_too_old now age d) = false :=
        Bool.eq_false_iff.mpr hc
      have hcn : (!decide (k ≤ i) && !prune_too_old now age d) = true := by
        rw [← Bool.not_or, hcb]; rfl
      simp [prune_select, List.enumFrom, hcb, hcn, ih (i + 1)]

theorem prune_select_none (k : Nat) (now : Int) :
    ∀ (s : List CacheDir) (i : Nat),
      prune_select k none now s i = (s.drop (k - i), s.take (k - i)) := by
  intro s
  induction s with
  | nil => intro i; simp [prune_select]
  | cons d rest ih =>
    intro i
    by_cases hk : k ≤ i
    · have h0 : k - i = 0 := by omega
      have h1 : k - (i + 1) = 0 := by omega
      simp [prune_select, prune_too_old, hk, ih (i + 1), h0, h1]
    · have hs : k - i = (k - (i + 1)) + 1 := by omega
      simp [prune_select, prune_too_old, hk, ih (i + 1), hs]

/-- Claim C8 (amended): `prune_cache` works on the fast-cache version
directories (its default root, not the durable store); it sorts them by
modification time descending and removes exactly those whose rank is at
least `max_versions` or whose age exceeds `max_age_days` when a threshold
is given; with no age threshold it retains exactly the `max_versions`
most-recently-modified directories; and the per-directory removal failure
oracle can never change the report or abort the batch. -/
theorem C8_prune_cache_selection (dirs : List CacheDir) (k : Nat)
    (age : Option Int) (now : Int) (rm_fails : CacheDir → Bool) :
    (List.Sorted mtime_desc (sort_by_mtime_desc dirs) ∧
      (sort_by_mtime_desc dirs).Perm dirs) ∧
    ((prune_cache dirs k age now).1 =
        ((sort_by_mtime_desc dirs).enum.filter
          (fun p => decide (k ≤ p.1) || prune_too_old now age p.2)).map Prod.snd ∧
      (prune_cache dirs k age now).2 =
        ((sort_by_mtime_desc dirs).enum.filter
          (fun p => !(decide (k ≤ p.1) || prune_too_old now age p.2))).map Prod.snd) ∧
    prune_cache dirs k none now =
      ((sort_by_mtime_desc dirs).drop k, (sort_by_mtime_desc dirs).take k) ∧
    (prune_cache_exec dirs k age now rm_fails).1 = prune_cache dirs k age now := by
  refine ⟨⟨List.sorted_insertionSort mtime_desc dirs,
    List.perm_insertionSort mtime_desc dirs⟩, ?_, ?_, rfl⟩
  · have h := prune_select_spec k age now (sort_by_mtime_desc dirs) 0
    rw [prune_cache, h]
    exact ⟨rfl, rfl⟩
  · have h := prune_select_none k now (sort_by_mtime_desc dirs) 0
    rw [prune_cache, h]
    simp

/-- Counterexample for C8 as stated: the root pruned by
`builder.prune_cache` is by default the fast-cache root
`<project>/.binman/cache`, which differs from the durable prebuilt-store
root `<project>/assets/binaries` the claim names. -/
theorem C8_prune_cache_counterexample :
    prune_cache_base "proj" none = default_cache_root "proj" ∧
      default_cache_root "proj" ≠ default_prebuilt_root "proj" := by
  constructor
  · rfl
  · decide

/-- Claim C4: with the default threshold 3 and cooldown 8 s, a heal attempt
happens exactly when the bumped streak reaches the threshold and the
cooldown since the last attempt for that engine has elapsed; a failed
relink of `gpu_nvidia` with a linkable `gpu_others` fallback splices the
fallback into the active list in place of the original and zeroes both
streaks; otherwise a failed relink pins the streak to one below the
threshold. -/
theorem C4_watchdog_heal (st : WorkerState) (name : String) (now : Int)
    (link : String → Bool) :
    (init_worker_state.heal_threshold = 3 ∧
      init_worker_state.heal_cooldown_s = 8) ∧
    ((mark_engine_fail st name now link).2 = true ↔
      (st.heal_threshold ≤ st.fail_streak name + 1 ∧
        st.heal_cooldown_s ≤ now - st.last_heal_ts name)) ∧
    (st.heal_threshold ≤ st.fail_streak name + 1 →
      st.heal_cooldown_s ≤ now - st.last_heal_ts name →
      link name = false → name = "gpu_nvidia" → link "gpu_others" = true →
      (mark_engine_fail st name now link).1.active_engines =
        replace_active_engine st.active_engines "gpu_nvidia" "gpu_others" ∧
      (mark_engine_fail st name now link).1.fail_streak "gpu_nvidia" = 0 ∧
      (mark_engine_fail st name now link).1.fail_streak "gpu_others" = 0) ∧
    (st.heal_threshold ≤ st.fail_streak name + 1 →
      st.heal_cooldown_s ≤ now - st.last_heal_ts name →
      link name = false → (name = "gpu_nvidia" → link "gpu_others" = false) →
      (mark_engine_fail st name now link).1.fail_streak name =
        st.heal_threshold - 1) := by
  refine ⟨⟨rfl, rfl⟩, ?_, ?_, ?_⟩
  · constructor
    · intro h
      by_cases ht : st.heal_threshold ≤ st.fail_streak name + 1
      · refine ⟨ht, ?_⟩
        by_cases hcd : now - st.last_heal_ts name < st.heal_cooldown_s
        · exfalso
          simp [mark_engine_fail, try_self_heal_engine, ht, hcd] at h
        · omega
      · exfalso
        simp [mark_engine_fail, ht] at h
    · rintro ⟨ht, hcd⟩
      have hcd' : ¬ (now - st.last_heal_ts name < st.heal_cooldown_s) := by omega
      simp only [mark_engine_fail, try_self_heal_engine, ht, if_true, hcd',
        if_false]
      split <;> (try rfl)
      split <;> rfl
  · intro ht hcd hl hn hf
    have hcd' : ¬ (now - st.last_heal_ts name < st.heal_cooldown_s) := by omega
    subst hn
    have hcond : ("gpu_nvidia" : String) = "gpu_nvidia" ∧ link "gpu_others" = true :=
      ⟨rfl, hf⟩
    simp only [mark_engine_fail, try_self_heal_engine, ht, if_true, hcd',
      if_false, hl, hcond, Bool.false_eq_true]
    refine ⟨rfl, ?_, ?_⟩ <;> simp [upd]
  · intro ht hcd hl hnf
    have hcd' : ¬ (now - st.last_heal_ts name < st.heal_cooldown_s) := by omega
    have hcond : ¬ (name = "gpu_nvidia" ∧ link "gpu_others" = true) := by
      rintro ⟨h1, h2⟩
      rw [hnf h1] at h2
      exact Bool.noConfusion h2
    simp only [mark_engine_fail, try_self_heal_engine, ht, if_true, hcd',
      if_false, hl, hcond, Bool.false_eq_true]
    simp [upd]

/-- Witness for C4 at a concrete third consecutive failure of `gpu_nvidia`
with a linkable `gpu_others`: the fallback is spliced in and both streaks
reset. -/
theorem C4_watchdog_witness :
    (mark_engine_fail w_wd_state "gpu_nvidia" 100 w_link).1.active_engines =
        replace_active_engine w_wd_state.active_engines "gpu_nvidia"
          "gpu_others" ∧
      (mark_engine_fail w_wd_state "gpu_nvidia" 100 w_link).1.fail_streak
          "gpu_others" = 0 :=
  ⟨((C4_watchdog_heal w_wd_state "gpu_nvidia" 100 w_link).2.2.1 (by decide)
      (by decide) (by decide) rfl (by decide)).1,
    ((C4_watchdog_heal w_wd_state "gpu_nvidia" 100 w_link).2.2.1 (by decide)
      (by decide) (by decide) rfl (by decide)).2.2⟩

theorem link_engine_once_cases (st : LinkState) (name : String) (be : Bool)
    (imp : Except String Unit) :
    (be = false ∧ link_engine_once st name be imp = .ok (false,
      { st with
        link_failures := set_failure st.link_failures name "binary not found" })) ∨
    (be = true ∧ ∃ e, imp = .error e ∧
      link_engine_once st name be imp = .error e) ∨
    (be = true ∧ imp = .ok () ∧ link_engine_once st name be imp = .ok (true,
      { st with
        loaded_engines := add_loaded st.loaded_engines name
        link_failures := pop_failure st.link_failures name })) := by
  cases be <;> cases imp <;> simp [link_engine_once]

theorem hotfix_st_failures (st : LinkState) (name : String) (env : LinkEnv) :
    (run_self_hotfix_build st name env).st.link_failures = st.link_failures := by
  unfold run_self_hotfix_build
  split
  · rfl
  · split <;> rfl

theorem hotfix_st_loaded (st : LinkState) (name : String) (env : LinkEnv) :
    (run_self_hotfix_build st name env).st.loaded_engines = st.loaded_engines := by
  unfold run_self_hotfix_build
  split
  · rfl
  · split <;> rfl

theorem hotfix_attempted_spec (st : LinkState) (name : String) (env : LinkEnv) :
    (name ∈ st.hotfix_attempted →
      run_self_hotfix_build st name env = ⟨false, st, false⟩) ∧
    (name ∉ st.hotfix_attempted →
      (run_self_hotfix_build st name env).attempted = true ∧
      (run_self_hotfix_build st name env).st.hotfix_attempted =
        name :: st.hotfix_attempted) := by
  constructor
  · intro h
    simp [run_self_hotfix_build, h]
  · intro h
    unfold run_self_hotfix_build
    rw [if_neg h]
    split <;> exact ⟨rfl, rfl⟩

theorem mem_add_loaded (l : List String) (k : String) : k ∈ add_loaded l k := by
  unfold add_loaded
  split
  · assumption
  · exact List.mem_cons_self k l

theorem lookup_set_failure (l : List (String × String)) (k v : String) :
    (set_failure l k v).lookup k = some v := by
  simp [set_failure, List.lookup]

theorem lookup_pop_failure (l : List (String × String)) (k : String) :
    (pop_failure l k).lookup k = none := by
  induction l with
  | nil => rfl
  | cons p t ih =>
    obtain ⟨a, b⟩ := p
    simp only [pop_failure] at ih ⊢
    by_cases hak : a = k
    · subst hak
      simp [List.filter_cons, ih]
    · have hk : (k == a) = false := by simp [Ne.symm hak]
      have ha : (a == k) = false := by simp [hak]
      simp [List.filter_cons, ha, List.lookup, hk, ih]

theorem link_engine_attempted_spec (st : LinkState) (name : String)
    (env : LinkEnv) :
    ((link_engine st name env).hotfix_attempted = true →
      name ∉ st.hotfix_attempted ∧
      (link_engine st name env).st.hotfix_attempted =
        name :: st.hotfix_attempted) ∧
    ((link_engine st name env).hotfix_attempted = false →
      (link_engine st name env).st.hotfix_attempted = st.hotfix_attempted) := by
  rcases link_engine_once_cases st name env.binary_exists env.import1 with
    ⟨hb, heq⟩ | ⟨hb, e, himp, heq⟩ | ⟨hb, himp, heq⟩
  · simp only [link_engine, heq]
    exact ⟨fun h => Bool.noConfusion h, fun _ => by trivial⟩
  · simp only [link_engine, heq]
    by_cases hrec : looks_recoverable_link_error e = true
    · rw [if_pos hrec]
      set st2 : LinkState :=
        { st with link_failures := set_failure st.link_failures name e }
        with hst2
      set hfx := run_self_hotfix_build st2 name env with hhfx
      by_cases hmem : name ∈ st.hotfix_attempted
      · have hmem2 : name ∈ st2.hotfix_attempted := hmem
        have hrun : hfx = ⟨false, st2, false⟩ :=
          (hotfix_attempted_spec st2 name env).1 hmem2
        rw [hrun]
        exact ⟨fun h => Bool.noConfusion h, fun _ => by trivial⟩
      · have hmem2 : name ∉ st2.hotfix_attempted := hmem
        have hrun := (hotfix_attempted_spec st2 name env).2 hmem2
        by_cases hok : hfx.ok = true
        · rw [if_pos hok]
          rcases link_engine_once_cases hfx.st name env.binary_exists2
              env.import2 with
            ⟨hb2, heq2⟩ | ⟨hb2, e2, himp2, heq2⟩ | ⟨hb2, himp2, heq2⟩
          · simp only [heq2]
            refine ⟨fun _ => ⟨hmem, hrun.2⟩, fun hflag => ?_⟩
            rw [hrun.1] at hflag
            exact Bool.noConfusion hflag
          · simp only [heq2]
            refine ⟨fun _ => ⟨hmem, hrun.2⟩, fun hflag => ?_⟩
            rw [hrun.1] at hflag
            exact Bool.noConfusion hflag
          · simp only [heq2]
            refine ⟨fun _ => ⟨hmem, hrun.2⟩, fun hflag => ?_⟩
            rw [hrun.1] at hflag
            exact Bool.noConfusion hflag
        · rw [if_neg hok]
          refine ⟨fun _ => ⟨hmem, hrun.2⟩, fun hflag => ?_⟩
          rw [hrun.1] at hflag
          exact Bool.noConfusion hflag
    · rw [if_neg hrec]
      exact ⟨fun h => Bool.noConfusion h, fun _ => by trivial⟩
  · simp only [link_engine, heq]
    exact ⟨fun h => Bool.noConfusion h, fun _ => by trivial⟩

theorem link_calls_hotfix_count (x : String) :
    ∀ (calls : List (String × LinkEnv)) (st : LinkState),
      (link_calls st calls).2.count x ≤
        (if x ∈ st.hotfix_attempted then 0 else 1) := by
  intro calls
  induction calls with
  | nil => intro st; simp [link_calls]
  | cons c rest ih =>
    intro st
    obtain ⟨name, env⟩ := c
    simp only [link_calls, List.count_append]
    by_cases hf : (link_engine st name env).hotfix_attempted = true
    · have hspec := (link_engine_attempted_spec st name env).1 hf
      by_cases hx : x ∈ st.hotfix_attempted
      · have hne : ¬ (name = x) := fun hcontra => hspec.1 (hcontra ▸ hx)
        have hxa : x ∈ (link_engine st name env).st.hotfix_attempted := by
          rw [hspec.2]
          exact List.mem_cons_of_mem _ hx
        have hrest := ih (link_engine st name env).st
        rw [if_pos hxa] at hrest
        rw [if_pos hx]
        simp only [hf, if_true]
        have hzero : List.count x [name] = 0 := by
          simp [List.count_cons, hne]
        omega
      · rw [if_neg hx]
        by_cases hnx : name = x
        · subst hnx
          have hxa : name ∈ (link_engine st name env).st.hotfix_attempted := by
            rw [hspec.2]
            exact List.mem_cons_self _ _
          have hrest := ih (link_engine st name env).st
          rw [if_pos hxa] at hrest
          simp only [hf, if_true]
          have hone : List.count name [name] = 1 := by simp
          omega
        · have hxa : x ∉ (link_engine st name env).st.hotfix_attempted := by
            rw [hspec.2]
            simp only [List.mem_cons]
            rintro (h | h)
            · exact hnx h.symm
            · exact hx h
          have hrest := ih (link_engine st name env).st
          rw [if_neg hxa] at hrest
          simp only [hf, if_true]
          have hzero : List.count x [name] = 0 := by
            simp [List.count_cons, hnx]
          omega
    · have hf' : (link_engine st name env).hotfix_attempted = false :=
        Bool.eq_false_iff.mpr hf
      have hpres := (link_engine_attempted_spec st name env).2 hf'
      have hrest := ih (link_engine st name env).st
      rw [hpres] at hrest
      simp only [hf', Bool.false_eq_true, if_false]
      simpa using hrest

/-- Claim C3 (amended): within one process lifetime a hotfix rebuild runs
at most once per engine; it delegates to the Build Orchestrator with
compile-only and prefer-cache but with no `names` restriction (the whole
engines directory is rebuilt, the readiness of the failing engine is then
checked); the link is retried at most once per call; and when the
retry import fails again the call surfaces false. -/
theorem C3_hotfix_once_per_lifetime :
    (∀ (calls : List (String × LinkEnv)) (x : String),
      (link_calls init_link_state calls).2.count x ≤ 1) ∧
    (hotfix_build_args.compile_only = true ∧
      hotfix_build_args.policy = "prefer_cache" ∧
      hotfix_build_args.names = none) ∧
    (∀ (st : LinkState) (name : String) (env : LinkEnv),
      (link_engine st name env).link_attempts ≤ 2) ∧
    (∀ (st : LinkState) (name : String) (env : LinkEnv) (e₂ : String),
      (link_engine st name env).link_attempts = 2 →
      env.import2 = .error e₂ → (link_engine st name env).ok = false) := by
  refine ⟨?_, ⟨rfl, rfl, rfl⟩, ?_, ?_⟩
  · intro calls x
    have h := link_calls_hotfix_count x calls init_link_state
    simpa [init_link_state] using h
  · intro st name env
    rcases link_engine_once_cases st name env.binary_exists env.import1 with
      ⟨hb, heq⟩ | ⟨hb, e, himp, heq⟩ | ⟨hb, himp, heq⟩
    · simp [link_engine, heq]
    · simp only [link_engine, heq]
      by_cases hrec : looks_recoverable_link_error e = true
      · rw [if_pos hrec]
        by_cases hok : (run_self_hotfix_build
            { st with link_failures := set_failure st.link_failures name e }
            name env).ok = true
        · rw [if_pos hok]
          rcases link_engine_once_cases (run_self_hotfix_build
              { st with link_failures := set_failure st.link_failures name e }
              name env).st name env.binary_exists2 env.import2 with
            ⟨hb2, heq2⟩ | ⟨hb2, e2, himp2, heq2⟩ | ⟨hb2, himp2, heq2⟩ <;>
            simp [heq2]
        · rw [if_neg hok]
          simp
      · rw [if_neg hrec]
        simp
    · simp [link_engine, heq]
  · intro st name env e₂ h2 himpE
    rcases link_engine_once_cases st name env.binary_exists env.import1 with
      ⟨hb, heq⟩ | ⟨hb, e, himp, heq⟩ | ⟨hb, himp, heq⟩
    · simp [link_engine, heq] at h2
    · simp only [link_engine, heq] at h2 ⊢
      by_cases hrec : looks_recoverable_link_error e = true
      · rw [if_pos hrec] at h2 ⊢
        by_cases hok : (run_self_hotfix_build
            { st with link_failures := set_failure st.link_failures name e }
            name env).ok = true
        · rw [if_pos hok] at h2 ⊢
          rcases link_engine_once_cases (run_self_hotfix_build
              { st with link_failures := set_failure st.link_failures name e }
              name env).st name env.binary_exists2 env.import2 with
            ⟨hb2, heq2⟩ | ⟨hb2, e2, himp2, heq2⟩ | ⟨hb2, himp2, heq2⟩
          · simp [heq2]
          · simp [heq2]
          · exfalso
            rw [himpE] at himp2
            exact Except.noConfusion himp2
        · rw [if_neg hok] at h2
          simp at h2
      · rw [if_neg hrec] at h2
        simp at h2
    · simp [link_engine, heq] at h2

/-- Counterexample for C3 as stated: the hotfix delegation passes no
`names` restriction to the orchestrator, so it is not restricted to the
single failing engine. -/
theorem C3_hotfix_counterexample :
    hotfix_build_args.names = none ∧
      hotfix_build_args.names ≠ some ["gpu_nvidia"] := by
  constructor
  · rfl
  · decide

/-- Witness for C3 at concrete inputs: two identical failing calls attempt
the hotfix at most once, and a failing retry surfaces false. -/
theorem C3_hotfix_witness :
    (link_calls init_link_state
        [("cpu", w_linkenv_hotfix), ("cpu", w_linkenv_hotfix)]).2.count "cpu" ≤ 1 ∧
      (link_engine init_link_state "cpu" w_linkenv_hotfix).ok = false :=
  ⟨C3_hotfix_once_per_lifetime.1
      [("cpu", w_linkenv_hotfix), ("cpu", w_linkenv_hotfix)] "cpu",
    C3_hotfix_once_per_lifetime.2.2.2 init_link_state "cpu" w_linkenv_hotfix
      "undefined symbol: gpu_probe" (by decide) rfl⟩

/-- Claim C10: `link_engine` never raises (every exception branch of the
model is consumed into a boolean); a true return means the module is
registered under the engine name with no failure entry left, and a false
return means a failure reason is recorded for that name. -/
theorem C10_link_engine_invariant (st : LinkState) (name : String)
    (env : LinkEnv) :
    ((link_engine st name env).ok = true →
      name ∈ (link_engine st name env).st.loaded_engines ∧
      (link_engine st name env).st.link_failures.lookup name = none) ∧
    ((link_engine st name env).ok = false →
      ∃ r, (link_engine st name env).st.link_failures.lookup name = some r) := by
  rcases link_engine_once_cases st name env.binary_exists env.import1 with
    ⟨hb, heq⟩ | ⟨hb, e, himp, heq⟩ | ⟨hb, himp, heq⟩
  · simp only [link_engine, heq]
    refine ⟨fun h => Bool.noConfusion h, fun _ => ?_⟩
    exact ⟨"binary not found",
      lookup_set_failure st.link_failures name "binary not found"⟩
  · simp only [link_engine, heq]
    by_cases hrec : looks_recoverable_link_error e = true
    · rw [if_pos hrec]
      set st2 : LinkState :=
        { st with link_failures := set_failure st.link_failures name e }
        with hst2
      set hfx := run_self_hotfix_build st2 name env with hhfx
      by_cases hok : hfx.ok = true
      · rw [if_pos hok]
        rcases link_engine_once_cases hfx.st name env.binary_exists2
            env.import2 with
          ⟨hb2, heq2⟩ | ⟨hb2, e2, himp2, heq2⟩ | ⟨hb2, himp2, heq2⟩
        · simp only [heq2]
          refine ⟨fun h => Bool.noConfusion h, fun _ => ?_⟩
          exact ⟨"binary not found",
            lookup_set_failure hfx.st.link_failures name "binary not found"⟩
        · simp only [heq2]
          refine ⟨fun h => Bool.noConfusion h, fun _ => ?_⟩
          exact ⟨e2, lookup_set_failure hfx.st.link_failures name e2⟩
        · simp only [heq2]
          refine ⟨fun _ => ⟨?_, ?_⟩, fun h => Bool.noConfusion h⟩
          · exact mem_add_loaded hfx.st.loaded_engines name
          · exact lookup_pop_failure _ name
      · rw [if_neg hok]
        refine ⟨fun h => Bool.noConfusion h, fun _ => ⟨e, ?_⟩⟩
        have hpres : hfx.st.link_failures = st2.link_failures :=
          hotfix_st_failures st2 name env
        rw [hpres]
        exact lookup_set_failure st.link_failures name e
    · rw [if_neg hrec]
      refine ⟨fun h => Bool.noConfusion h, fun _ => ⟨e, ?_⟩⟩
      exact lookup_set_failure st.link_failures name e
  · simp only [link_engine, heq]
    refine ⟨fun _ => ⟨?_, ?_⟩, fun h => Bool.noConfusion h⟩
    · exact mem_add_loaded st.loaded_engines name
    · exact lookup_pop_failure _ name

/-- Witness for C10 at concrete inputs: a successful link registers the
engine with a clean failure table, and a missing binary records a failure
reason. -/
theorem C10_link_engine_witness :
    "cpu" ∈ (link_engine init_link_state "cpu" w_linkenv_ok).st.loaded_engines ∧
      (∃ r, (link_engine init_link_state "cpu"
        w_linkenv_missing).st.link_failures.lookup "cpu" = some r) :=
  ⟨((C10_link_engine_invariant init_link_state "cpu" w_linkenv_ok).1
      (by decide)).1,
    (C10_link_engine_invariant init_link_state "cpu" w_linkenv_missing).2
      (by decide)⟩
